import Mathlib

/-! Shallow embedding of the `rag-qdrant-notebook.ipynb` RAG pipeline
(PDF ingestion → chunk splitting → vector collection → top-k retrieval →
prompt assembly → interactive question loop) and proofs of the behavioural
claims about it.

Pure orchestration code from the notebook cells is translated directly.
Behaviour that lives in external libraries (langchain text splitter, the
Qdrant store, the sentence-transformer embedder, the hosted LLM) is not part
of the repository source; those parts are modelled from the specification,
and each such definition is marked `Modelled from the spec:` in its doc
comment.
-/

set_option maxRecDepth 8000

namespace RagQdrant

/-- Chunk size constant of the notebook cell that builds the text splitter
(`CharacterTextSplitter(chunk_size=1000, chunk_overlap=200)`). -/
def chunk_size : Nat := 1000

/-- Chunk overlap constant of the notebook cell that builds the text splitter. -/
def chunk_overlap : Nat := 200

/-- Modelled from the spec: `CharacterTextSplitter.split_text` is langchain
library code that is not part of this repository.  The spec (§4.3) describes
the split as a fixed-size sliding window over the extracted document text:
`chunk_size` characters per chunk with `chunk_overlap` characters shared
between consecutive chunks (`chunk_overlap < chunk_size`), the final chunk
possibly shorter. -/
def split_text (S V : Nat) (text : List Char) : List (List Char) :=
  if _h : text.length ≤ S ∨ S ≤ V then [text]
  else text.take S :: split_text S V (text.drop (S - V))
termination_by text.length
decreasing_by
  simp only [List.length_drop]
  omega

/-- The head chunk of any split starts with the same `V` characters as the
text being split. -/
lemma split_text_head_take (S V : Nat) (hVS : V ≤ S) (t : List Char) :
    ∃ c rest, split_text S V t = c :: rest ∧ c.take V = t.take V := by
  rw [split_text]
  split
  · exact ⟨t, [], rfl, rfl⟩
  · refine ⟨t.take S, _, rfl, ?_⟩
    rw [List.take_take, Nat.min_eq_left hVS]

/-- Adjacent chunks of a sliding-window split: every chunk followed by
another chunk has length exactly `S`, and its last `V` characters are the
first `V` characters of the next chunk. -/
lemma split_text_adjacent (S V : Nat) (t : List Char) :
    ∀ (pre post : List (List Char)) (a b : List Char),
      split_text S V t = pre ++ a :: b :: post →
      a.length = S ∧ a.drop (S - V) = b.take V ∧ V ≤ b.length := by
  have main : ∀ (n : Nat) (t : List Char), t.length ≤ n →
      ∀ (pre post : List (List Char)) (a b : List Char),
        split_text S V t = pre ++ a :: b :: post →
        a.length = S ∧ a.drop (S - V) = b.take V ∧ V ≤ b.length := by
    intro n
    induction n with
    | zero =>
      intro t ht pre post a b heq
      rw [split_text] at heq
      have hlen : t.length ≤ S ∨ S ≤ V := by
        left
        omega
      rw [dif_pos hlen] at heq
      have := congrArg List.length heq
      simp at this
      omega
    | succ n ih =>
      intro t ht pre post a b heq
      rw [split_text] at heq
      by_cases hcond : t.length ≤ S ∨ S ≤ V
      · rw [dif_pos hcond] at heq
        have := congrArg List.length heq
        simp at this
        omega
      · rw [dif_neg hcond] at heq
        push_neg at hcond
        obtain ⟨hS, hV⟩ := hcond
        cases pre with
        | nil =>
          simp only [List.nil_append, List.cons.injEq] at heq
          obtain ⟨ha, hrest⟩ := heq
          obtain ⟨c, rest, hc, hcv⟩ :=
            split_text_head_take S V (le_of_lt hV) (t.drop (S - V))
          rw [hc, List.cons.injEq] at hrest
          obtain ⟨hb, -⟩ := hrest
          have halen : a.length = S := by
            rw [← ha, List.length_take]
            omega
          refine ⟨halen, ?_, ?_⟩
          · rw [← ha, List.drop_take]
            have hsv : S - (S - V) = V := by omega
            rw [hsv, ← hcv, hb]
          · have hble : (b.take V).length = ((t.drop (S - V)).take V).length := by
              rw [← hb, hcv]
            simp only [List.length_take, List.length_drop, inf_eq_min] at hble
            omega
        | cons p pre2 =>
          simp only [List.cons_append, List.cons.injEq] at heq
          exact ih (t.drop (S - V)) (by simp only [List.length_drop]; omega)
            pre2 post a b heq.2
  exact main t.length t le_rfl

/-- C1: with `chunk_size = 1000` and `chunk_overlap = 200`, every pair of
consecutive chunks produced from one document text shares exactly 200
characters (the last 200 characters of a chunk are the first 200 characters
of the next one, and the next one is at least 200 characters long), and
every chunk except possibly the final one has length exactly 1000. -/
theorem C1_chunk_overlap (t : List Char) (pre post : List (List Char)) (a b : List Char)
    (h : split_text chunk_size chunk_overlap t = pre ++ a :: b :: post) :
    a.length = 1000 ∧ a.drop 800 = b.take 200 ∧ 200 ≤ b.length := by
  have hGen := split_text_adjacent chunk_size chunk_overlap t pre post a b h
  simpa [chunk_size, chunk_overlap] using hGen

/-- Witness for C1: a 1800-character text splits into two chunks of 1000
characters overlapping in their middle 200 characters. -/
theorem C1_chunk_overlap_witness :
    split_text chunk_size chunk_overlap (List.replicate 1800 'a') =
      [] ++ List.replicate 1000 'a' :: List.replicate 1000 'a' :: [] ∧
    ((List.replicate 1000 'a' : List Char).length = 1000 ∧
      (List.replicate 1000 'a' : List Char).drop 800 =
        (List.replicate 1000 'a' : List Char).take 200 ∧
      200 ≤ (List.replicate 1000 'a' : List Char).length) := by
  have h : split_text chunk_size chunk_overlap (List.replicate 1800 'a') =
      [] ++ List.replicate 1000 'a' :: List.replicate 1000 'a' :: [] := by
    rw [split_text, dif_neg (by simp [chunk_size, chunk_overlap])]
    rw [split_text, dif_pos (by simp [chunk_size, chunk_overlap])]
    simp [chunk_size, chunk_overlap, List.take_replicate, List.drop_replicate]
  exact ⟨h, C1_chunk_overlap (List.replicate 1800 'a') [] []
    (List.replicate 1000 'a') (List.replicate 1000 'a') h⟩

/-! Vector store model (Qdrant collections). -/

/-- Distance metric of a Qdrant collection (`qdrant_client.http.models.Distance`). -/
inductive Distance where
  | cosine
  | dot
  | euclid
deriving DecidableEq

/-- Modelled from the spec: a stored vector record — embedding vector plus the
chunk text payload.  Floats are represented as rationals. -/
structure PointRec where
  vector : List Rat
  payload : List Char
deriving DecidableEq

/-- Modelled from the spec: the configuration and contents of a named
collection — fixed `(dimension, distance-metric)` plus the stored points. -/
structure CollectionInfo where
  size : Nat
  distance : Distance
  points : List PointRec
deriving DecidableEq

/-- Modelled from the spec: the external vector store, a map from collection
names to collections, represented as an association list. -/
abbrev Store := List (String × CollectionInfo)

/-- Collection name constant from the notebook (`collection_name = "pdf_documents"`). -/
def collection_name : String := "pdf_documents"

/-- Embedding dimension of the loaded `all-MiniLM-L6-v2` model, queried once at
startup (`embeddings.client.get_sentence_embedding_dimension()`); the notebook
documents it as 384. -/
def embedding_dimension : Nat := 384

/-- Modelled from the spec: the sentence-transformer embedder — a deterministic
function from text to a fixed-length vector of `embedding_dimension` numbers
(`embed(text) -> fixed-length float vector`, §4.1). -/
def embed (text : List Char) : List Rat :=
  (List.range embedding_dimension).map
    (fun i => (((text.map Char.toNat).sum + i : Nat) : Rat))

/-- Modelled from the spec: `delete_collection` removes the named collection
from the store. -/
def delete_collection (s : Store) (n : String) : Store :=
  s.filter (fun c => c.1 != n)

/-- Modelled from the spec: `create_collection` adds a fresh, empty collection
with the given dimension and metric. -/
def create_collection (s : Store) (n : String) (dim : Nat) (d : Distance) : Store :=
  s ++ [(n, ⟨dim, d, []⟩)]

/-- Collection-setup step of notebook cell 8: list the existing collection
names; if `collection_name` is among them, delete it unconditionally; then
create it fresh with `size = embedding_dimension` and cosine distance. -/
def ensure_collection (s : Store) : Store :=
  let collection_names := s.map Prod.fst
  let s1 := if collection_name ∈ collection_names then delete_collection s collection_name else s
  create_collection s1 collection_name embedding_dimension Distance.cosine

lemma delete_collection_no_key (s : Store) (n : String) :
    ∀ p ∈ delete_collection s n, p.1 ≠ n := by
  intro p hp
  have := List.of_mem_filter hp
  simpa using this

lemma lookup_eq_none_of_no_key (s : Store) (n : String)
    (h : ∀ p ∈ s, p.1 ≠ n) : List.lookup n s = none := by
  rw [List.lookup_eq_none_iff]
  intro p hp
  simpa using (h p hp).symm

/-- Keys surviving the conditional delete in `ensure_collection` are never the
target collection name. -/
lemma ensure_collection_s1_no_key (s : Store) :
    ∀ p ∈ (if collection_name ∈ s.map Prod.fst
            then delete_collection s collection_name else s),
      p.1 ≠ collection_name := by
  split
  · exact delete_collection_no_key s collection_name
  · rename_i hmem
    intro p hp hcontra
    exact hmem (by rw [← hcontra]; exact List.mem_map_of_mem Prod.fst hp)

/-- After `ensure_collection`, looking up the collection yields a fresh empty
collection of the declared dimension with cosine distance. -/
lemma ensure_collection_lookup (s : Store) :
    List.lookup collection_name (ensure_collection s) =
      some ⟨embedding_dimension, Distance.cosine, []⟩ := by
  unfold ensure_collection create_collection
  rw [List.lookup_append,
    lookup_eq_none_of_no_key _ _ (ensure_collection_s1_no_key s),
    Option.none_or]
  simp [List.lookup]

lemma delete_collection_of_no_key (s : Store) (n : String)
    (h : ∀ p ∈ s, p.1 ≠ n) : delete_collection s n = s := by
  unfold delete_collection
  rw [List.filter_eq_self]
  intro p hp
  simpa using h p hp

/-- C2: the collection-setup step always leaves the store containing an empty
collection named `collection_name` with `size = embedding_dimension` and
cosine distance — any previously stored points under that name are gone — and
running it twice in succession is the same as running it once. -/
theorem C2_ensure_collection_reset (s : Store) :
    List.lookup collection_name (ensure_collection s) =
      some ⟨embedding_dimension, Distance.cosine, []⟩ ∧
    ensure_collection (ensure_collection s) = ensure_collection s := by
  refine ⟨ensure_collection_lookup s, ?_⟩
  have hkeys := ensure_collection_s1_no_key s
  conv_lhs => rw [ensure_collection]
  have hmem : collection_name ∈ (ensure_collection s).map Prod.fst := by
    unfold ensure_collection create_collection
    simp
  rw [if_pos hmem]
  show create_collection (delete_collection (ensure_collection s) collection_name)
      collection_name embedding_dimension Distance.cosine = ensure_collection s
  unfold ensure_collection create_collection
  rw [delete_collection]
  rw [List.filter_append]
  have h1 : List.filter (fun c => c.1 != collection_name)
      (if collection_name ∈ s.map Prod.fst
        then delete_collection s collection_name else s) =
      (if collection_name ∈ s.map Prod.fst
        then delete_collection s collection_name else s) := by
    rw [List.filter_eq_self]
    intro p hp
    simpa using hkeys p hp
  rw [h1]
  simp

lemma embed_length (t : List Char) : (embed t).length = embedding_dimension := by
  simp [embed]

/-- C7: for every run the collection is created with vector dimension equal to
the output length of the embedding provider — the collection recorded in the store
after setup has `size` equal to the length of any embedding the provider
produces. -/
theorem C7_dimension_matches_embedding (s : Store) (t : List Char) :
    (List.lookup collection_name (ensure_collection s)).map CollectionInfo.size =
      some (embed t).length := by
  rw [ensure_collection_lookup s, embed_length]
  rfl

/-! Document ingestion (notebook cell 10). -/

/-- Chunk record produced by ingestion: the chunk text plus the source file it
came from. -/
structure Chunk where
  text : List Char
  source_file : String
deriving DecidableEq

/-- Extension filter of the ingestion loop
(`fname.lower().endswith(".pdf")` from notebook cell 10): lowercase the file
name character by character and test whether `.pdf` is a suffix of it. -/
def matches_pdf (fname : String) : Bool :=
  (".pdf").data.isSuffixOf (fname.data.map Char.toLower)

/-- Ingestion loop of notebook cell 10: for each file in the folder, skip it
unless its lowercased name ends in `.pdf`; otherwise count it, record its
name, and append its split chunks.  A file is modelled as its name paired
with its extracted text (PyPDF text extraction is library code; the spec
reduces a document to its extracted text).  Returns
`(documents, pdf_files, processed file names)`. -/
def load_documents : List (String × List Char) → List Chunk × Nat × List String
  | [] => ([], 0, [])
  | f :: fs =>
    let r := load_documents fs
    if matches_pdf f.1 then
      ((split_text chunk_size chunk_overlap f.2).map (fun c => ⟨c, f.1⟩) ++ r.1,
        r.2.1 + 1, f.1 :: r.2.2)
    else r

/-- Outcome of the ingestion cell.  `documentsVar = none` models the branch in
which the folder does not exist, where the Python variable `documents` is
never assigned at all (the cell only creates the folder and prints guidance). -/
structure IngestResult where
  documentsVar : Option (List Chunk)
  pdf_files : Nat
  processed_files : List String
  messages : List String
deriving DecidableEq

/-- Number of chunks the ingestion step delivered. -/
def IngestResult.chunkCount (r : IngestResult) : Nat :=
  (r.documentsVar.getD []).length

/-- Ingestion cell of the notebook: if the folder does not exist (`none`),
create it and print guidance without assigning `documents`; otherwise run the
loading loop and report either the no-PDF guidance or the loaded-chunk count. -/
def ingest (folder : Option (List (String × List Char))) : IngestResult :=
  match folder with
  | none =>
      { documentsVar := none
        pdf_files := 0
        processed_files := []
        messages := ["Created directory: ./pdfs",
          "Please add your PDF files to this directory and run this cell again."] }
  | some files =>
      let r := load_documents files
      { documentsVar := some r.1
        pdf_files := r.2.1
        processed_files := r.2.2
        messages :=
          if r.2.1 = 0 then
            ["No PDF files found in ./pdfs. Please add PDF files and run this cell again."]
          else
            ["Loaded and split chunks from PDF files."] }

/-- Modelled from the spec: `Qdrant.from_documents` — embed each chunk and
upsert one point per chunk into the named collection (§4.4: one logical
batch upsert, no other collection is touched). -/
def from_documents (s : Store) (docs : List Chunk) : Store :=
  s.map (fun c =>
    if c.1 = collection_name then
      (c.1, { c.2 with
        points := c.2.points ++ docs.map (fun d => ⟨embed d.text, d.text⟩) })
    else c)

/-- Indexing cell of the notebook: proceed to the upsert only when the
`documents` variable exists and is non-empty (the cell guards on the
variable being defined in scope and on a positive length).  The returned flag
records whether the upsert was invoked (and hence whether the `vectorstore`
variable was assigned). -/
def index_step (r : IngestResult) (s : Store) : Store × Bool :=
  match r.documentsVar with
  | some docs => if 0 < docs.length then (from_documents s docs, true) else (s, false)
  | none => (s, false)

/-! Configuration (notebook cell 4) and the sequential run. -/

/-- Configuration cell of the notebook: read `GOOGLE_API_KEY` from the
environment.  When the variable is absent, `os.getenv` yields `None`, the
guard merely passes, and the following `os.environ` assignment raises a
fatal `TypeError`; when it is present the cell completes with the key. -/
def configure_environment (env : List (String × String)) : Except String String :=
  match List.lookup ("GOOGLE_API_KEY") env with
  | none => Except.error ("TypeError: str expected, not NoneType")
  | some k => Except.ok k

/-- Aggregate outcome of one sequential run of the notebook. -/
structure RunResult where
  store : Store
  pdf_files : Nat
  chunkCount : Nat
  upserted : Bool
  ready : Bool
deriving DecidableEq

/-- Sequential run of the notebook cells: configuration, collection setup,
ingestion, indexing, chain construction.  `none` models the run aborting in
the configuration cell before any later step executes.  The RAG chain is
built exactly when the `vectorstore` variable exists, i.e. when the upsert
ran (`ready`). -/
def runPipeline (env : List (String × String))
    (folder : Option (List (String × List Char))) : Option RunResult :=
  match configure_environment env with
  | Except.error _ => none
  | Except.ok _ =>
    let s1 := ensure_collection []
    let ing := ingest folder
    let p := index_step ing s1
    some { store := p.1
           pdf_files := ing.pdf_files
           chunkCount := ing.chunkCount
           upserted := p.2
           ready := p.2 }

/-- Processed-file characterisation of the ingestion loop: a file is processed
exactly when its lowercased name ends in `.pdf`. -/
lemma load_documents_processed (files : List (String × List Char)) :
    (load_documents files).2.2 =
      (files.map Prod.fst).filter
        (fun n => (".pdf").data.isSuffixOf (n.data.map Char.toLower)) := by
  induction files with
  | nil => rfl
  | cons f fs ih =>
    simp only [load_documents, List.map_cons, List.filter_cons]
    by_cases hm : (".pdf").data.isSuffixOf (f.1.data.map Char.toLower)
    · simp [matches_pdf, hm, ih]
    · simp [matches_pdf, hm, ih]

/-- C10: file-extension matching during ingestion is case-insensitive — the
processed files are exactly those whose lowercased name ends with `.pdf`, so
`.PDF` and `.Pdf` files are ingested and other extensions are skipped. -/
theorem C10_pdf_extension_filter (files : List (String × List Char)) :
    (load_documents files).2.2 =
      (files.map Prod.fst).filter
        (fun n => (".pdf").data.isSuffixOf (n.data.map Char.toLower)) ∧
    matches_pdf ("report.PDF") = true ∧
    matches_pdf ("report.Pdf") = true ∧
    matches_pdf ("report.pdf") = true ∧
    matches_pdf ("report.txt") = false :=
  ⟨load_documents_processed files, by decide, by decide, by decide, by decide⟩

lemma load_documents_no_pdf (files : List (String × List Char))
    (h : ∀ f ∈ files, matches_pdf f.1 = false) :
    load_documents files = ([], 0, []) := by
  induction files with
  | nil => rfl
  | cons f fs ih =>
    have hf := h f (by simp)
    simp only [load_documents, hf, Bool.false_eq_true, if_false]
    exact ih (fun g hg => h g (by simp [hg]))

/-- C5: for every empty-input condition (missing folder, or a folder with no
`.pdf` files) the run reports a zero PDF and chunk count, prints one of the
two guidance messages, returns normally, and the indexing step leaves the
store untouched without invoking the upsert. -/
theorem C5_empty_input (folder : Option (List (String × List Char))) (s : Store)
    (h : folder = none ∨
      ∃ files, folder = some files ∧ files.countP (fun f => matches_pdf f.1) = 0) :
    (ingest folder).chunkCount = 0 ∧
    (ingest folder).pdf_files = 0 ∧
    ((ingest folder).messages =
        ["Created directory: ./pdfs",
          "Please add your PDF files to this directory and run this cell again."] ∨
      (ingest folder).messages =
        ["No PDF files found in ./pdfs. Please add PDF files and run this cell again."]) ∧
    index_step (ingest folder) s = (s, false) := by
  rcases h with h | ⟨files, hf, hcount⟩
  · subst h
    exact ⟨rfl, rfl, Or.inl rfl, rfl⟩
  · subst hf
    have hall : ∀ f ∈ files, matches_pdf f.1 = false := by
      intro f hf2
      have := List.countP_eq_zero.mp hcount f hf2
      simpa using this
    have hld := load_documents_no_pdf files hall
    refine ⟨?_, ?_, Or.inr ?_, ?_⟩ <;>
      simp [ingest, hld, IngestResult.chunkCount, index_step]

/-- Folder used by the C5 witness: it exists but holds no PDF file. -/
def c5_folder : Option (List (String × List Char)) :=
  some [("notes.txt", "hi".data)]

/-- Witness for C5: a folder containing only `notes.txt` yields zero counts,
the no-PDF guidance, and an untouched store. -/
theorem C5_empty_input_witness :
    (c5_folder = none ∨
      ∃ files, c5_folder = some files ∧
        files.countP (fun f => matches_pdf f.1) = 0) ∧
    ((ingest c5_folder).chunkCount = 0 ∧
      (ingest c5_folder).pdf_files = 0 ∧
      ((ingest c5_folder).messages =
          ["Created directory: ./pdfs",
            "Please add your PDF files to this directory and run this cell again."] ∨
        (ingest c5_folder).messages =
          ["No PDF files found in ./pdfs. Please add PDF files and run this cell again."]) ∧
      index_step (ingest c5_folder) [] = ([], false)) :=
  ⟨Or.inr ⟨[("notes.txt", "hi".data)], rfl, by decide⟩,
    C5_empty_input c5_folder []
      (Or.inr ⟨[("notes.txt", "hi".data)], rfl, by decide⟩)⟩

/-- C8: configuration fails exactly when the `GOOGLE_API_KEY` environment
variable is absent, and in that case the whole run aborts in the
configuration cell — no later pipeline step produces a result; when the key
is present the run proceeds. -/
theorem C8_missing_api_key_fatal (env : List (String × String))
    (folder : Option (List (String × List Char))) :
    ((configure_environment env).isOk = false ↔
      List.lookup ("GOOGLE_API_KEY") env = none) ∧
    (runPipeline env folder = none ↔
      List.lookup ("GOOGLE_API_KEY") env = none) := by
  cases h : List.lookup ("GOOGLE_API_KEY") env with
  | none => simp [configure_environment, runPipeline, h, Except.isOk, Except.toBool]
  | some k => simp [configure_environment, runPipeline, h, Except.isOk, Except.toBool]

/-! Retrieval (notebook cell 16: `as_retriever(search_kwargs={"k": 3})`). -/

/-- Modelled from the spec: the similarity score of the collection metric.
The claimed properties concern only the ordering and count of results, so the
score is represented as an exact rational dot product. -/
def score (q v : List Rat) : Rat := (List.zipWith (fun a b => a * b) q v).sum

/-- Modelled from the spec: `query(vector, k)` of the vector store (§4.2) —
up to `k` stored points ordered by descending similarity to the query
vector. -/
def query (points : List PointRec) (q : List Rat) (k : Nat) : List PointRec :=
  (points.mergeSort (fun a b => decide (score q b.vector ≤ score q a.vector))).take k

/-- Retrieval step of `answer(question)`: embed the question and query the
collection for the top 3 nearest points (the retriever of the notebook is
built with k fixed at 3 in its search arguments). -/
def answerRetrieve (s : Store) (q : List Char) : List PointRec :=
  match List.lookup collection_name s with
  | some ci => query ci.points (embed q) 3
  | none => []

/-- C3: with the collection in place, answering a question retrieves exactly
`min 3 n` chunks where `n` is the collection size, ordered by descending
similarity of their vectors to the embedding of the question, and every retrieved
point is a stored point of the collection. -/
theorem C3_topk_retrieval (s : Store) (ci : CollectionInfo) (q : List Char)
    (h : List.lookup collection_name s = some ci) :
    (answerRetrieve s q).length = min 3 ci.points.length ∧
    List.Sorted
      (fun a b : PointRec => score (embed q) b.vector ≤ score (embed q) a.vector)
      (answerRetrieve s q) ∧
    ∀ p ∈ answerRetrieve s q, p ∈ ci.points := by
  have har : answerRetrieve s q = query ci.points (embed q) 3 := by
    simp [answerRetrieve, h]
  rw [har]
  unfold query
  refine ⟨?_, ?_, ?_⟩
  · simp [List.length_take, List.length_mergeSort, inf_eq_min]
  · have htrans : ∀ a b c : PointRec,
        decide (score (embed q) b.vector ≤ score (embed q) a.vector) = true →
        decide (score (embed q) c.vector ≤ score (embed q) b.vector) = true →
        decide (score (embed q) c.vector ≤ score (embed q) a.vector) = true := by
      intro a b c hab hbc
      simp only [decide_eq_true_eq] at *
      exact le_trans hbc hab
    have htotal : ∀ a b : PointRec,
        (decide (score (embed q) b.vector ≤ score (embed q) a.vector) ||
          decide (score (embed q) a.vector ≤ score (embed q) b.vector)) = true := by
      intro a b
      simp only [Bool.or_eq_true, decide_eq_true_eq]
      exact le_total _ _
    have hs := List.sorted_mergeSort htrans htotal ci.points
    have hs2 : List.Pairwise
        (fun a b : PointRec => score (embed q) b.vector ≤ score (embed q) a.vector)
        (ci.points.mergeSort
          (fun a b => decide (score (embed q) b.vector ≤ score (embed q) a.vector))) :=
      hs.imp (fun hab => by simpa using hab)
    exact List.Pairwise.sublist (List.take_sublist 3 _) hs2
  · intro p hp
    have hp2 := List.mem_of_mem_take hp
    exact (List.mergeSort_perm ci.points _).mem_iff.mp hp2

/-- Store used by the C3 witness: the freshly created, still empty collection. -/
def c3_store : Store :=
  [(collection_name, ⟨embedding_dimension, Distance.cosine, []⟩)]

/-- Witness for C3: querying the empty collection retrieves
`min 3 0 = 0` chunks, trivially ordered, all from the collection. -/
theorem C3_topk_retrieval_witness :
    List.lookup collection_name c3_store =
      some ⟨embedding_dimension, Distance.cosine, []⟩ ∧
    ((answerRetrieve c3_store ("capital".data)).length =
        min 3 (⟨embedding_dimension, Distance.cosine, []⟩ : CollectionInfo).points.length ∧
      List.Sorted
        (fun a b : PointRec =>
          score (embed ("capital".data)) b.vector ≤ score (embed ("capital".data)) a.vector)
        (answerRetrieve c3_store ("capital".data)) ∧
      ∀ p ∈ answerRetrieve c3_store ("capital".data),
        p ∈ (⟨embedding_dimension, Distance.cosine, []⟩ : CollectionInfo).points) := by
  have h : List.lookup collection_name c3_store =
      some ⟨embedding_dimension, Distance.cosine, []⟩ := by
    simp [c3_store, List.lookup]
  exact ⟨h, C3_topk_retrieval c3_store _ ("capital".data) h⟩

/-! Prompt template (notebook cell 14) and prompt rendering. -/

/-- Template text before the `context` placeholder. -/
def template_part1 : String :=
  "You are an expert assistant. Use the following context to answer the user\x27s question.\n\nContext:\n"

/-- Template text between the `context` and first `question` placeholders. -/
def template_part2 : String := "\n\nQuestion:\n"

/-- Template text between the first and second `question` placeholders. -/
def template_part3 : String :=
  "\n\nAnswer:\n1. Summary:  \n   Provide a succinct explanatory summary (1–4 sentences).\n\n2. Key Points:  \n   List the main supporting details in bullet form.\n\nExample format:\n\n1. Summary:  \n   The primary purpose of vector databases is to store and query dense vector embeddings for similarity search.\n\n2. Key Points:  \n   - Vector databases offer fully managed services, eliminating infrastructure overhead.  \n   - They support cosine and dot-product similarity metrics for fast nearest-neighbor retrieval.  \n   - They integrate seamlessly with popular embedding libraries like SentenceTransformer.  \n   - They provide automatic indexing to scale to millions of vectors.\n\nNow, answer the question below following this format:\n"

/-- Template text after the second `question` placeholder. -/
def template_part4 : String := "\n"

/-- Modelled from the spec: the stuff-chain context — the retrieved chunk
texts concatenated (joined with blank lines) into one `context` string. -/
def build_context (chunks : List (List Char)) : String :=
  String.intercalate ("\n\n") (chunks.map (fun c => String.mk c))

/-- Prompt rendering (`PromptTemplate`) of notebook cell 14: substitute `context` and
`question` into the fixed template (the template mentions `question` twice). -/
def render_prompt (context question : String) : String :=
  template_part1 ++ context ++ template_part2 ++ question ++
    template_part3 ++ question ++ template_part4

/-- C6: the rendered prompt contains the concatenated retrieved chunk texts
and the raw question text literally as substrings. -/
theorem C6_prompt_contains_context_and_question
    (chunks : List (List Char)) (question : String) :
    (∃ u v, (render_prompt (build_context chunks) question).data =
        u ++ (build_context chunks).data ++ v) ∧
    (∃ u v, (render_prompt (build_context chunks) question).data =
        u ++ question.data ++ v) := by
  constructor
  · exact ⟨template_part1.data,
      (template_part2 ++ question ++ template_part3 ++ question ++ template_part4).data,
      by simp [render_prompt, String.data_append]⟩
  · exact ⟨(template_part1 ++ build_context chunks ++ template_part2).data,
      (template_part3 ++ question ++ template_part4).data,
      by simp [render_prompt, String.data_append]⟩

/-! Question answering and the interactive loop (notebook cell 18). -/

/-- Message printed by `ask_question` when the RAG chain has not been built. -/
def not_ready_message : String :=
  "RAG chain not created. Please run previous cells successfully first."

/-- Modelled from the spec: the hosted LLM call — a deterministic function
from the rendered prompt to free-form answer text (its content is opaque to
the pipeline). -/
def llm_answer (prompt : String) : String := String.mk prompt.data

/-- Observable outcome of one `ask_question` call: the returned value, the
printed lines, and whether the retrieval/LLM chain was invoked at all. -/
structure AskOutcome where
  result : Option (List PointRec × String)
  messages : List String
  invokedChain : Bool
deriving DecidableEq

/-- Question handler `ask_question` from notebook cell 18: when the `qa_chain` variable is
absent (system Uninitialized) print the not-ready message and return `None`
without invoking the chain; otherwise run the chain — retrieve, build the
prompt, call the LLM — and print question and answer. -/
def ask_question (chainReady : Bool) (s : Store) (q : String) : AskOutcome :=
  if chainReady then
    let docs := answerRetrieve s q.data
    let ans := llm_answer (render_prompt (build_context (docs.map PointRec.payload)) q)
    { result := some (docs, ans)
      messages := ["QUESTION: " ++ q, "ANSWER:", ans]
      invokedChain := true }
  else
    { result := none
      messages := [not_ready_message]
      invokedChain := false }

/-- C9: in the Uninitialized state every question is rejected — `ask_question`
returns `None` with the not-ready message and does not invoke the chain — and
a run reaches the Ready state only when ingestion produced chunks, the upsert
ran, and the collection exists in the store. -/
theorem C9_uninitialized_guard :
    (∀ (s : Store) (q : String),
      ask_question false s q =
        { result := none, messages := [not_ready_message], invokedChain := false }) ∧
    (∀ (env : List (String × String)) (folder : Option (List (String × List Char)))
        (r : RunResult), runPipeline env folder = some r → r.ready = true →
      r.upserted = true ∧ 0 < r.chunkCount ∧
      (List.lookup collection_name r.store).isSome = true) := by
  constructor
  · intro s q
    rfl
  · intro env folder r hrun hready
    unfold runPipeline at hrun
    cases hconf : configure_environment env with
    | error e =>
      rw [hconf] at hrun
      exact absurd hrun (by simp)
    | ok k =>
      rw [hconf] at hrun
      simp only [Option.some.injEq] at hrun
      subst hrun
      simp only at hready ⊢
      cases hd : (ingest folder).documentsVar with
      | none =>
        simp only [index_step, hd] at hready
        simp at hready
      | some docs =>
        simp only [index_step, hd] at hready ⊢
        by_cases hlen : 0 < docs.length
        · rw [if_pos hlen] at hready ⊢
          refine ⟨rfl, ?_, ?_⟩
          · simp [IngestResult.chunkCount, hd]
            exact hlen
          · have hec : ensure_collection [] =
                [(collection_name, ⟨embedding_dimension, Distance.cosine, []⟩)] := rfl
            rw [hec]
            simp [from_documents, List.lookup]
        · rw [if_neg hlen] at hready
          simp at hready

lemma option_eq_some_getD {α : Type _} (o : Option α) (d : α) (h : o.isSome = true) :
    o = some (o.getD d) := by
  cases o with
  | none => simp at h
  | some x => rfl

/-- Witness for C9: a run with the API key present and one non-empty PDF
reaches Ready, with the upsert run, a positive chunk count, and the
collection present in the store. -/
theorem C9_uninitialized_guard_witness :
    runPipeline [("GOOGLE_API_KEY", "secret")] (some [("doc.pdf", "hello".data)]) =
      some ((runPipeline [("GOOGLE_API_KEY", "secret")]
        (some [("doc.pdf", "hello".data)])).getD ⟨[], 0, 0, false, false⟩) ∧
    ((runPipeline [("GOOGLE_API_KEY", "secret")]
        (some [("doc.pdf", "hello".data)])).getD ⟨[], 0, 0, false, false⟩).ready = true ∧
    (((runPipeline [("GOOGLE_API_KEY", "secret")]
        (some [("doc.pdf", "hello".data)])).getD ⟨[], 0, 0, false, false⟩).upserted = true ∧
      0 < ((runPipeline [("GOOGLE_API_KEY", "secret")]
        (some [("doc.pdf", "hello".data)])).getD ⟨[], 0, 0, false, false⟩).chunkCount ∧
      (List.lookup collection_name
        ((runPipeline [("GOOGLE_API_KEY", "secret")]
          (some [("doc.pdf", "hello".data)])).getD ⟨[], 0, 0, false, false⟩).store).isSome = true) := by
  have hsplit : split_text chunk_size chunk_overlap ("hello".data) = [("hello".data)] := by
    rw [split_text, dif_pos]
    left
    decide
  have hm : matches_pdf ("doc.pdf") = true := by decide
  have hld : load_documents [("doc.pdf", "hello".data)] =
      ([⟨"hello".data, "doc.pdf"⟩], 1, ["doc.pdf"]) := by
    simp [load_documents, hm, hsplit]
  have hing : ingest (some [("doc.pdf", "hello".data)]) =
      { documentsVar := some [⟨"hello".data, "doc.pdf"⟩]
        pdf_files := 1
        processed_files := ["doc.pdf"]
        messages := ["Loaded and split chunks from PDF files."] } := by
    simp [ingest, hld]
  have hsome : (runPipeline [("GOOGLE_API_KEY", "secret")]
      (some [("doc.pdf", "hello".data)])).isSome = true := by
    simp [runPipeline, configure_environment, hing, index_step]
  have h1 : runPipeline [("GOOGLE_API_KEY", "secret")] (some [("doc.pdf", "hello".data)]) =
      some ((runPipeline [("GOOGLE_API_KEY", "secret")]
        (some [("doc.pdf", "hello".data)])).getD ⟨[], 0, 0, false, false⟩) :=
    option_eq_some_getD _ _ hsome
  have h2 : ((runPipeline [("GOOGLE_API_KEY", "secret")]
      (some [("doc.pdf", "hello".data)])).getD ⟨[], 0, 0, false, false⟩).ready = true := by
    simp [runPipeline, configure_environment, hing, index_step]
  exact ⟨h1, h2, C9_uninitialized_guard.2 [("GOOGLE_API_KEY", "secret")]
    (some [("doc.pdf", "hello".data)]) _ h1 h2⟩

/-- Exit sentinels of the interactive loop (notebook cell 18). -/
def exit_commands : List String := ["exit", "quit", "q"]

/-- Exit check of the interactive loop (`user_question.lower()` membership in
the exit sentinel list): lowercase the input character by character and test
membership in the sentinel list. -/
def is_exit_command (s : String) : Bool :=
  exit_commands.contains (String.mk (s.data.map Char.toLower))

/-- Interactive loop `interactive_qa_session` from notebook cell 18, run on a finite stream of
input lines: read a line; if it is an exit sentinel (case-insensitively)
stop, reporting termination; otherwise pass the line to `ask_question` and
repeat.  Returns the lines passed to the answer pipeline and whether an exit
sentinel terminated the loop. -/
def interactive_qa_session : List String → List String × Bool
  | [] => ([], false)
  | line :: rest =>
    if is_exit_command line then ([], true)
    else
      let r := interactive_qa_session rest
      (line :: r.1, r.2)

/-- C4: the interactive loop terminates at an input line exactly when the
line lowercased equals `exit`, `quit`, or `q`; any other line — the empty
string included — is passed to the answer pipeline and the loop repeats on
the remaining input. -/
theorem C4_loop_exit_sentinels (line : String) (rest : List String) :
    (interactive_qa_session (line :: rest) = ([], true) ↔
      (String.mk (line.data.map Char.toLower) = "exit" ∨
        String.mk (line.data.map Char.toLower) = "quit" ∨
        String.mk (line.data.map Char.toLower) = "q")) ∧
    (¬(String.mk (line.data.map Char.toLower) = "exit" ∨
        String.mk (line.data.map Char.toLower) = "quit" ∨
        String.mk (line.data.map Char.toLower) = "q") →
      interactive_qa_session (line :: rest) =
        (line :: (interactive_qa_session rest).1, (interactive_qa_session rest).2)) := by
  have hiff : is_exit_command line = true ↔
      (String.mk (line.data.map Char.toLower) = "exit" ∨
        String.mk (line.data.map Char.toLower) = "quit" ∨
        String.mk (line.data.map Char.toLower) = "q") := by
    simp [is_exit_command, exit_commands]
  constructor
  · constructor
    · intro hrun
      by_contra hno
      have hbe : is_exit_command line = false := by
        cases hcase : is_exit_command line
        · rfl
        · exact absurd (hiff.mp hcase) hno
      simp [interactive_qa_session, hbe] at hrun
    · intro hs
      simp [interactive_qa_session, hiff.mpr hs]
  · intro hno
    have hbe : is_exit_command line = false := by
      cases hcase : is_exit_command line
      · rfl
      · exact absurd (hiff.mp hcase) hno
    simp [interactive_qa_session, hbe]

/-- Witness for C4: the empty input line is not a sentinel, so the loop
passes it to the pipeline and continues with the remaining input. -/
theorem C4_loop_exit_sentinels_witness :
    ¬(String.mk (("" : String).data.map Char.toLower) = "exit" ∨
        String.mk (("" : String).data.map Char.toLower) = "quit" ∨
        String.mk (("" : String).data.map Char.toLower) = "q") ∧
    interactive_qa_session ["", "qUIt"] =
      ("" :: (interactive_qa_session ["qUIt"]).1, (interactive_qa_session ["qUIt"]).2) :=
  ⟨by decide, (C4_loop_exit_sentinels "" ["qUIt"]).2 (by decide)⟩

end RagQdrant
